import Mathlib

/-!
# Verification of `train_mbes.py` (score-denoise MBES training script)

Shallow embedding of the data model and operations of `train_mbes.py`:
point clouds are lists of 3D real points, tensors of point clouds are lists
of such lists, and the script's functions (`get_data_transform`,
`custom_collate`, `validate`, the main training loop) are translated to
Lean functions.  Components of the repository that the script imports but
whose source is elsewhere (`mbes_denoise`, the noise transforms'
constructors) are modelled from the specification, and marked as such.
-/

set_option autoImplicit false

/-- A 3D point with real coordinates (one row of an `(N, 3)` tensor). -/
abbrev Point : Type := ℝ × ℝ × ℝ

/-- Euclidean norm of a 3D point: `torch.linalg.norm(·, dim=-1)` applied to
one row. -/
noncomputable def norm3 (p : Point) : ℝ :=
  Real.sqrt (p.1 ^ 2 + p.2.1 ^ 2 + p.2.2 ^ 2)

/-- `torch.mean` over a 1-D tensor holding the given list of scalars
(sum divided by length). -/
noncomputable def torchMean (l : List ℝ) : ℝ :=
  l.sum / l.length

/-- The point-correspondence distance of `train_mbes.py:179` in the case
where the two clouds have the same length:
`torch.linalg.norm(a - b, dim=-1).mean()`, i.e. the mean over matching
indices of the Euclidean norm of the per-point difference. -/
noncomputable def pointCorrValue (a b : List Point) : ℝ :=
  torchMean (List.zipWith (fun p q => norm3 (p - q)) a b)

/-- The point-correspondence metric of `train_mbes.py:179` with PyTorch's
shape semantics for `a - b` on shapes `(N, 3)` and `(M, 3)`: the
subtraction succeeds when `N = M`, or broadcasts when `N = 1` or `M = 1`;
any other pair of lengths raises a `RuntimeError`, modelled as `none`. -/
noncomputable def pointCorrMetric (a b : List Point) : Option ℝ :=
  if a.length = b.length then
    some (pointCorrValue a b)
  else if a.length = 1 then
    some (torchMean (b.map (fun q => norm3 (a.headI - q))))
  else if b.length = 1 then
    some (torchMean (a.map (fun p => norm3 (p - b.headI))))
  else
    none

/-! ## Noise transforms and `get_data_transform` (`train_mbes.py:39-50`) -/

/-- Modelled from the spec: the noise-transform constructors `AddNoise` and
`AddNoiseToNoisyPCL` live in `utils/transforms.py`, which is not under
`src/`.  Per §4.1 a transform is configured with a
`[noise_std_min, noise_std_max]` standard-deviation range; the only error
condition §4.1 states for the component is an unrecognized transform name,
so construction itself stores the range and cannot fail. -/
inductive TransformStep : Type
  | addNoise (noise_std_min noise_std_max : ℚ)
  | addNoiseToNoisyPCL (noise_std_min noise_std_max : ℚ)
deriving DecidableEq, Repr

/-- `Compose([...])` wrapping a list of transform steps. -/
inductive DataTransform : Type
  | compose (steps : List TransformStep)
deriving DecidableEq, Repr

/-- The fields of `args_dataset` read by `get_data_transform`. -/
structure DatasetArgs : Type where
  transform : Option String
  noise_min : ℚ
  noise_max : ℚ
deriving DecidableEq, Repr

/-- `get_data_transform` (`train_mbes.py:39-50`): `None` yields no
transform, the two recognized names yield the corresponding
`Compose([...])`, and any other name raises
`ValueError('Invalid transform type: %s' % ...)`, modelled as
`Except.error`. -/
def getDataTransform (a : DatasetArgs) : Except String (Option DataTransform) :=
  match a.transform with
  | none => Except.ok none
  | some s =>
    if s = "add_noise_to_clean" then
      Except.ok (some (DataTransform.compose [TransformStep.addNoise a.noise_min a.noise_max]))
    else if s = "add_noise_to_noisy" then
      Except.ok (some (DataTransform.compose [TransformStep.addNoiseToNoisyPCL a.noise_min a.noise_max]))
    else
      Except.error ("Invalid transform type: " ++ s)

/-! ## `custom_collate` (`train_mbes.py:70-83`) -/

/-- One record exposed by the dataset collaborator: fields `pcl_clean`,
`pcl_noisy` (clouds of shape `(N, 3)`) and `pcl_noisy_mean`. -/
structure PatchSample : Type where
  pcl_clean : List Point
  pcl_noisy : List Point
  pcl_noisy_mean : Point

/-- Maximum length among a list of clouds (the padded capacity chosen by
`pad_sequence`). -/
def maxLen (ls : List (List Point)) : Nat :=
  (ls.map List.length).foldr max 0

/-- Pad one cloud with zero rows up to capacity `n`
(`pad_sequence` pads with `0.0`). -/
def padTo (n : Nat) (l : List Point) : List Point :=
  l ++ List.replicate (n - l.length) (0, 0, 0)

/-- `torch.nn.utils.rnn.pad_sequence(·, batch_first=True)`: every cloud is
padded with zero rows to the maximum length in the batch. -/
def padSequence (ls : List (List Point)) : List (List Point) :=
  ls.map (padTo (maxLen ls))

/-- The dictionary returned by `custom_collate`. -/
structure Batch : Type where
  pcl_clean : List (List Point)
  pcl_noisy : List (List Point)
  pcl_noisy_mean : List Point
  pcl_length : List Nat

/-- `custom_collate` (`train_mbes.py:70-83`): clone the per-sample tensors,
record the clean clouds' lengths, pad clean and noisy clouds to rectangular
storage, and stack the centroids.  `clone().detach()` is the identity on
values; the storage-sharing effects are modelled separately on a heap. -/
def customCollate (data : List PatchSample) : Batch :=
  { pcl_clean := padSequence (data.map PatchSample.pcl_clean)
    pcl_noisy := padSequence (data.map PatchSample.pcl_noisy)
    pcl_noisy_mean := data.map PatchSample.pcl_noisy_mean
    pcl_length := data.map (fun d => d.pcl_clean.length) }

/-! ## Langevin denoiser (`mbes_denoise`, `train_mbes.py:170`) -/

/-- Modelled from the spec: `mbes_denoise` lives in `utils/denoise.py`,
which is not under `src/`.  Per §4.4 one transition at step `t` queries
the model for a displacement `d_t` on the current cloud `x` and updates
`x ← x + step_size(t) * d_t` (deterministic variant, no injected noise). -/
def langevinStep (model : List Point → List Point) (stepSize : Nat → ℝ)
    (t : Nat) (x : List Point) : List Point :=
  List.zipWith (fun p d => p + stepSize t • d) x (model x)

/-- Modelled from the spec: §4.4 runs the transition for a fixed number of
remaining steps, feeding step `t`'s output to step `t + 1`, and returns the
final cloud; `T = 0` remaining steps is terminal. -/
def langevinRunFrom (model : List Point → List Point) (stepSize : Nat → ℝ) :
    Nat → Nat → List Point → List Point
  | _, 0, x => x
  | t, Nat.succ k, x => langevinRunFrom model stepSize (t + 1) k (langevinStep model stepSize t x)

/-- Modelled from the spec: the Langevin denoiser starts at step index `0`
on the input noisy cloud and performs `T` transitions. -/
def mbesDenoise (model : List Point → List Point) (stepSize : Nat → ℝ)
    (T : Nat) (pcl_noisy : List Point) : List Point :=
  langevinRunFrom model stepSize 0 T pcl_noisy

/-- The model that predicts a zero displacement for every point of its
input cloud. -/
def zeroDisplacementModel (x : List Point) : List Point :=
  x.map (fun _ => (0, 0, 0))

/-! ## `validate` (`train_mbes.py:155-191`) -/

/-- One item yielded by `val_loader` inside `validate`, after
`squeeze(dim=0)`: the noisy cloud, the clean cloud, and the length tensor
read on `train_mbes.py:165` (appended to `all_length` and never used). -/
structure ValBatch : Type where
  pcl_noisy : List Point
  pcl_clean : List Point
  pcl_length : List Nat

/-- The loop body of `validate` (`train_mbes.py:162-180`): for each batch,
denoise the noisy cloud, compute the Chamfer distance (delegated to the
external `pytorch3d.loss.chamfer_distance`, abstracted as `chamfer`) and
the point-correspondence distance on the full tensors, and accumulate both
in `all_chamfer` and `all_point_corr_distance`; a shape error from the
subtraction on line 179 propagates out of the loop. -/
noncomputable def collectMetrics (denoise : List Point → List Point)
    (chamfer : List Point → List Point → ℝ) :
    List ValBatch → Except String (List ℝ × List ℝ)
  | [] => Except.ok ([], [])
  | b :: rest =>
    match pointCorrMetric (denoise b.pcl_noisy) b.pcl_clean with
    | none => Except.error "shape mismatch in pcl_denoised - pcl_clean"
    | some pcd =>
      match collectMetrics denoise chamfer rest with
      | Except.error e => Except.error e
      | Except.ok (cs, ps) =>
        Except.ok (chamfer (denoise b.pcl_noisy) b.pcl_clean :: cs, pcd :: ps)

/-- `validate` (`train_mbes.py:155-191`): run the loop, average the two
metric lists with `torch.mean`, emit the scalars tagged `val/chamfer` and
`val/diff` to the writer, and return `(avg_chamfer, avg_point_corr_dist)`.
The result carries the returned pair together with the writer events. -/
noncomputable def validateRun (denoise : List Point → List Point)
    (chamfer : List Point → List Point → ℝ) (batches : List ValBatch) :
    Except String ((ℝ × ℝ) × List (String × ℝ)) :=
  match collectMetrics denoise chamfer batches with
  | Except.error e => Except.error e
  | Except.ok (all_chamfer, all_point_corr_distance) =>
    Except.ok ((torchMean all_chamfer, torchMean all_point_corr_distance),
      [("val/chamfer", torchMean all_chamfer),
       ("val/diff", torchMean all_point_corr_distance)])

/-! ## Main loop and interruption (`train_mbes.py:195-208`) -/

/-- One atomic phase of an epoch of the main loop: the epoch's training
pass, its validation pass, the checkpoint write
(`ckpt_mgr.save(..., step=epoch)`), or the scheduler step. -/
inductive LoopStep : Type
  | trainEpoch (epoch : Nat)
  | valEpoch (epoch : Nat)
  | saveCkpt (epoch : Nat)
  | schedStep (epoch : Nat)
deriving DecidableEq, Repr

/-- The phases of epoch `e`, in program order (`train_mbes.py:196-205`). -/
def epochSteps (e : Nat) : List LoopStep :=
  [LoopStep.trainEpoch e, LoopStep.valEpoch e, LoopStep.saveCkpt e, LoopStep.schedStep e]

/-- The whole body of the `try:` block: the phases of epochs
`0, ..., max_epochs - 1` in order. -/
def loopSteps (max_epochs : Nat) : List LoopStep :=
  (List.range max_epochs).flatMap epochSteps

/-- Run the `try:` body given `intr`, which tells at which steps a
`KeyboardInterrupt` fires.  Execution proceeds in program order; the first
interrupted step aborts the body before performing that step's effect, and
`Except.error` models the exception escaping the `for` loop.  The value
returned either way is the list of epochs whose checkpoints were written,
in order. -/
def runTryBody (intr : LoopStep → Bool) : List LoopStep → List Nat × Option Unit
  | [] => ([], none)
  | s :: rest =>
    if intr s then ([], some ())
    else
      match s with
      | LoopStep.saveCkpt e =>
        let r := runTryBody intr rest
        (e :: r.1, r.2)
      | _ => runTryBody intr rest

/-- The outcome of the whole script tail: checkpoints written, log lines
emitted after the loop, and whether an exception escaped to the caller. -/
structure RunOutcome : Type where
  ckpts : List Nat
  logs : List String
deriving DecidableEq, Repr

/-- `train_mbes.py:195-208`: the `try/except KeyboardInterrupt` around the
epoch loop.  A `KeyboardInterrupt` raised anywhere in the body is caught,
`'Terminating...'` is logged, and the script ends normally; an
`Except.error` result would model an exception escaping uncaught. -/
def mainLoop (max_epochs : Nat) (intr : LoopStep → Bool) : Except Unit RunOutcome :=
  match runTryBody intr (loopSteps max_epochs) with
  | (ckpts, some _) => Except.ok { ckpts := ckpts, logs := ["Terminating..."] }
  | (ckpts, none) => Except.ok { ckpts := ckpts, logs := [] }

/-! ## Storage model for `custom_collate` (`train_mbes.py:70-83`)

To settle the aliasing claims about `clone().detach()`, tensors are
modelled as cells of a heap and samples/batches hold cell ids.  `clone`
copies a cell's value into a fresh cell, `pad_sequence`, `torch.stack` and
`torch.LongTensor` allocate fresh cells for their results. -/

/-- The value stored in one tensor cell: a cloud `(N, 3)`, a stacked batch
tensor `(B, N, 3)`, or a length tensor `(B,)`. -/
inductive TensorVal : Type
  | pts (v : List Point)
  | pts3 (v : List (List Point))
  | lens (v : List Nat)

/-- A heap of tensor cells; cell ids are indices into `cells`. -/
structure THeap : Type where
  cells : List TensorVal

/-- Read cell `i` (an invalid id reads as an empty cloud). -/
def THeap.read (h : THeap) (i : Nat) : TensorVal :=
  h.cells.getD i (TensorVal.pts [])

/-- Allocate a fresh cell holding `v`; returns the new heap and the id. -/
def THeap.alloc (h : THeap) (v : TensorVal) : THeap × Nat :=
  (⟨h.cells ++ [v]⟩, h.cells.length)

/-- Overwrite cell `i` in place (an in-place tensor mutation). -/
def THeap.write (h : THeap) (i : Nat) (v : TensorVal) : THeap :=
  ⟨h.cells.set i v⟩

/-- The cloud stored in a cell (a non-cloud cell reads as empty). -/
def TensorVal.asPts : TensorVal → List Point
  | TensorVal.pts v => v
  | _ => []

/-- A patch sample as the dataset hands it over: ids of its three tensors. -/
structure SampleRef : Type where
  pcl_clean : Nat
  pcl_noisy : Nat
  pcl_noisy_mean : Nat

/-- The batch dictionary as ids of the four freshly built tensors. -/
structure BatchRef : Type where
  pcl_clean : Nat
  pcl_noisy : Nat
  pcl_noisy_mean : Nat
  pcl_length : Nat

/-- `tensor.clone().detach()` for each id in turn: each clone copies the
read value into a fresh cell. -/
def cloneList (h : THeap) : List Nat → THeap × List Nat
  | [] => (h, [])
  | i :: rest =>
    let a := h.alloc (h.read i)
    let r := cloneList a.1 rest
    (r.1, a.2 :: r.2)

/-- `custom_collate` on the heap (`train_mbes.py:70-83`): clone and detach
the three tensors of every sample, take the clean clouds' lengths, then
allocate the padded clean tensor, the padded noisy tensor, the stacked
centroid tensor and the `LongTensor` of lengths as fresh cells. -/
def customCollateRef (h : THeap) (data : List SampleRef) : THeap × BatchRef :=
  let rc := cloneList h (data.map SampleRef.pcl_clean)
  let rn := cloneList rc.1 (data.map SampleRef.pcl_noisy)
  let rm := cloneList rn.1 (data.map SampleRef.pcl_noisy_mean)
  let cleanVals := rc.2.map (fun i => (rm.1.read i).asPts)
  let noisyVals := rn.2.map (fun i => (rm.1.read i).asPts)
  let meanVals := rm.2.map (fun i => (rm.1.read i).asPts)
  let ac := rm.1.alloc (TensorVal.pts3 (padSequence cleanVals))
  let an := ac.1.alloc (TensorVal.pts3 (padSequence noisyVals))
  let am := an.1.alloc (TensorVal.pts3 meanVals)
  let al := am.1.alloc (TensorVal.lens (cleanVals.map List.length))
  (al.1, { pcl_clean := ac.2, pcl_noisy := an.2, pcl_noisy_mean := am.2, pcl_length := al.2 })

/-- Heap extension: every pre-existing cell id still reads the same value,
and the allocation frontier has not moved backwards. -/
def HeapLe (h h' : THeap) : Prop :=
  h.cells.length ≤ h'.cells.length ∧
  ∀ i, i < h.cells.length → h'.read i = h.read i

/-! ## Theorems -/

/-- **C4**: `get_data_transform` recognizes exactly three transform kinds:
`None` yields no transform, `'add_noise_to_clean'` and
`'add_noise_to_noisy'` yield the corresponding transform built from
`(noise_min, noise_max)`, and every other transform name raises a
`ValueError`. -/
theorem getDataTransform_cases (nmin nmax : ℚ) :
    getDataTransform ⟨none, nmin, nmax⟩ = Except.ok none ∧
    getDataTransform ⟨some "add_noise_to_clean", nmin, nmax⟩ =
      Except.ok (some (DataTransform.compose [TransformStep.addNoise nmin nmax])) ∧
    getDataTransform ⟨some "add_noise_to_noisy", nmin, nmax⟩ =
      Except.ok (some (DataTransform.compose [TransformStep.addNoiseToNoisyPCL nmin nmax])) ∧
    ∀ s : String, s ≠ "add_noise_to_clean" → s ≠ "add_noise_to_noisy" →
      getDataTransform ⟨some s, nmin, nmax⟩ =
        Except.error ("Invalid transform type: " ++ s) := by
  refine ⟨rfl, rfl, rfl, fun s h1 h2 => ?_⟩
  simp [getDataTransform, h1, h2]

/-- Witness for C4 at the concrete unrecognized name `"foo"`. -/
theorem getDataTransform_cases_witness :
    ("foo" : String) ≠ "add_noise_to_clean" ∧ ("foo" : String) ≠ "add_noise_to_noisy" ∧
    getDataTransform ⟨some "foo", 0, 1⟩ =
      Except.error ("Invalid transform type: " ++ "foo") :=
  ⟨by decide, by decide,
    (getDataTransform_cases 0 1).2.2.2 "foo" (by decide) (by decide)⟩

/-- **C2, counterexample**: a configuration with a malformed noise range
(`noise_std_min = 2 > 1 = noise_std_max`) does not raise a configuration
error: `get_data_transform` returns a transform and training proceeds. -/
theorem malformedRange_accepted_cex :
    (1 : ℚ) < 2 ∧
    getDataTransform ⟨some "add_noise_to_clean", 2, 1⟩ =
      Except.ok (some (DataTransform.compose [TransformStep.addNoise 2 1])) :=
  ⟨by norm_num, rfl⟩

/-- **C2, amended**: a malformed noise range (`noise_std_min >
noise_std_max`) is not validated anywhere before training: for every such
range, `get_data_transform` still succeeds on all three recognized
transform settings, so no configuration error is raised before the first
training step. -/
theorem malformedRange_no_failfast (nmin nmax : ℚ) (hmal : nmax < nmin) :
    getDataTransform ⟨some "add_noise_to_clean", nmin, nmax⟩ =
      Except.ok (some (DataTransform.compose [TransformStep.addNoise nmin nmax])) ∧
    getDataTransform ⟨some "add_noise_to_noisy", nmin, nmax⟩ =
      Except.ok (some (DataTransform.compose [TransformStep.addNoiseToNoisyPCL nmin nmax])) ∧
    getDataTransform ⟨none, nmin, nmax⟩ = Except.ok none :=
  ⟨rfl, rfl, rfl⟩

/-- Witness for the amended C2 at the concrete malformed range `(2, 1)`. -/
theorem malformedRange_no_failfast_witness :
    (1 : ℚ) < 2 ∧
    getDataTransform ⟨some "add_noise_to_noisy", 2, 1⟩ =
      Except.ok (some (DataTransform.compose [TransformStep.addNoiseToNoisyPCL 2 1])) :=
  ⟨by norm_num, (malformedRange_no_failfast 2 1 (by norm_num)).2.1⟩

/-- The Langevin step of the zero-displacement model moves no point. -/
theorem langevinStep_zero (stepSize : Nat → ℝ) (t : Nat) (x : List Point) :
    langevinStep zeroDisplacementModel stepSize t x = x := by
  induction x with
  | nil => rfl
  | cons p xs ih =>
    have h0 : ((0, 0, 0) : Point) = 0 := rfl
    simp only [langevinStep, zeroDisplacementModel, List.map_cons, List.zipWith_cons_cons,
      h0, smul_zero, add_zero] at ih ⊢
    exact congrArg (List.cons p) ih

/-- Any number of Langevin transitions under the zero-displacement model
leaves the cloud unchanged, from any starting step index. -/
theorem langevinRunFrom_zero (stepSize : Nat → ℝ) (k t : Nat) (x : List Point) :
    langevinRunFrom zeroDisplacementModel stepSize t k x = x := by
  induction k generalizing t x with
  | zero => rfl
  | succ k ih =>
    have hstep : langevinRunFrom zeroDisplacementModel stepSize t (k + 1) x =
        langevinRunFrom zeroDisplacementModel stepSize (t + 1) k
          (langevinStep zeroDisplacementModel stepSize t x) := rfl
    rw [hstep, langevinStep_zero]
    exact ih (t + 1) x

/-- **C3**: the Langevin denoiser is the identity in two cases: with
`T = 0` steps it returns the input cloud unchanged for every model and
step-size schedule, and with a model that constantly predicts zero
displacement it returns the input cloud unchanged for every `T` and
step-size schedule. -/
theorem mbesDenoise_identity :
    (∀ (model : List Point → List Point) (stepSize : Nat → ℝ) (x : List Point),
      mbesDenoise model stepSize 0 x = x) ∧
    (∀ (stepSize : Nat → ℝ) (T : Nat) (x : List Point),
      mbesDenoise zeroDisplacementModel stepSize T x = x) :=
  ⟨fun _ _ _ => rfl, fun stepSize T x => langevinRunFrom_zero stepSize T 0 x⟩

/-- The Euclidean norm of the zero point is zero. -/
theorem norm3_zero : norm3 0 = 0 := by
  norm_num [norm3]

/-- `torch.mean` of a constant non-empty list is that constant. -/
theorem torchMean_replicate (n : Nat) (hn : n ≠ 0) (c : ℝ) :
    torchMean (List.replicate n c) = c := by
  rw [torchMean, List.sum_replicate, List.length_replicate, nsmul_eq_mul,
    mul_div_cancel_left₀ _ (Nat.cast_ne_zero.mpr hn)]

/-- Per-point differences of a cloud with itself all have norm zero. -/
theorem zipWith_norm3_self (x : List Point) :
    List.zipWith (fun p q => norm3 (p - q)) x x = List.replicate x.length 0 := by
  induction x with
  | nil => rfl
  | cons p xs ih => simp [List.replicate_succ, ih, norm3_zero]

/-- Per-point differences of a uniformly translated cloud against the
original are all the translation vector. -/
theorem zipWith_norm3_translate (x : List Point) (v : Point) :
    List.zipWith (fun p q => norm3 (p - q)) (x.map (fun p => p + v)) x =
      List.replicate x.length (norm3 v) := by
  induction x with
  | nil => rfl
  | cons p xs ih => simp [List.replicate_succ, ih, add_sub_cancel_left]

/-- **C8**: the point-correspondence distance between a non-empty cloud and
itself is exactly 0, and between a uniformly translated copy (by vector
`v`) and the original cloud it equals the Euclidean norm of `v`. -/
theorem pointCorr_self_and_translate :
    (∀ x : List Point, x ≠ [] → pointCorrValue x x = 0) ∧
    (∀ (x : List Point) (v : Point), x ≠ [] →
      pointCorrValue (x.map (fun p => p + v)) x = norm3 v) := by
  constructor
  · intro x hx
    rw [pointCorrValue, zipWith_norm3_self,
      torchMean_replicate _ (fun h => hx (List.length_eq_zero.mp h))]
  · intro x v hx
    rw [pointCorrValue, zipWith_norm3_translate,
      torchMean_replicate _ (fun h => hx (List.length_eq_zero.mp h))]

/-- Witness for C8 at the cloud `[(1, 2, 3)]` and vector `(3, 0, 0)`. -/
theorem pointCorr_self_and_translate_witness :
    (([((1:ℝ), 2, 3)] : List Point) ≠ [] ∧
      pointCorrValue [((1:ℝ), 2, 3)] [((1:ℝ), 2, 3)] = 0) ∧
    (([((1:ℝ), 2, 3)] : List Point) ≠ [] ∧
      pointCorrValue (([((1:ℝ), 2, 3)] : List Point).map (fun p => p + ((3:ℝ), 0, 0)))
        [((1:ℝ), 2, 3)] = norm3 ((3:ℝ), 0, 0)) :=
  ⟨⟨by simp, pointCorr_self_and_translate.1 _ (by simp)⟩,
   ⟨by simp, pointCorr_self_and_translate.2 _ ((3:ℝ), 0, 0) (by simp)⟩⟩

/-- **C1, counterexample**: PyTorch broadcasting makes the
point-correspondence metric silently compute a value on clouds of
*different* point counts when one of them has exactly one point: on the
one-point cloud `[(0,0,0)]` against `[(0,0,0), (2,0,0)]` the subtraction
broadcasts and the metric evaluates to `1` instead of reporting the
mismatch. -/
theorem pointCorrMetric_broadcast_cex :
    (([((0:ℝ), 0, 0)] : List Point).length ≠
      ([((0:ℝ), 0, 0), ((2:ℝ), 0, 0)] : List Point).length) ∧
    pointCorrMetric [((0:ℝ), 0, 0)] [((0:ℝ), 0, 0), ((2:ℝ), 0, 0)] = some 1 := by
  refine ⟨by simp, ?_⟩
  simp [pointCorrMetric, torchMean, norm3]

/-- **C1, amended**: the metric raises a shape error exactly when the two
clouds' lengths differ and neither cloud has exactly one point; with equal
lengths it silently computes the mean per-index distance, and with
differing lengths where one cloud has a single point broadcasting silently
computes a value as well. -/
theorem pointCorrMetric_shape_semantics (a b : List Point) :
    (a.length = b.length → pointCorrMetric a b = some (pointCorrValue a b)) ∧
    (a.length ≠ b.length → a.length ≠ 1 → b.length ≠ 1 →
      pointCorrMetric a b = none) ∧
    (a.length ≠ b.length → (a.length = 1 ∨ b.length = 1) →
      (pointCorrMetric a b).isSome = true) := by
  refine ⟨fun h => ?_, fun h h1 h2 => ?_, fun h h1 => ?_⟩
  · rw [pointCorrMetric, if_pos h]
  · rw [pointCorrMetric, if_neg h, if_neg h1, if_neg h2]
  · rcases h1 with h1 | h1
    · rw [pointCorrMetric, if_neg h, if_pos h1]; rfl
    · by_cases ha : a.length = 1
      · rw [pointCorrMetric, if_neg h, if_pos ha]; rfl
      · rw [pointCorrMetric, if_neg h, if_neg ha, if_pos h1]; rfl

/-- Witness for the amended C1: a concrete instance of each of the three
cases (equal lengths, incompatible lengths, broadcast). -/
theorem pointCorrMetric_shape_semantics_witness :
    (([((0:ℝ), 0, 0)] : List Point).length = ([((0:ℝ), 0, 0)] : List Point).length ∧
      pointCorrMetric [((0:ℝ), 0, 0)] [((0:ℝ), 0, 0)] =
        some (pointCorrValue [((0:ℝ), 0, 0)] [((0:ℝ), 0, 0)])) ∧
    (([((0:ℝ), 0, 0), ((0:ℝ), 0, 0)] : List Point).length ≠
        ([((0:ℝ), 0, 0), ((0:ℝ), 0, 0), ((0:ℝ), 0, 0)] : List Point).length ∧
      ([((0:ℝ), 0, 0), ((0:ℝ), 0, 0)] : List Point).length ≠ 1 ∧
      ([((0:ℝ), 0, 0), ((0:ℝ), 0, 0), ((0:ℝ), 0, 0)] : List Point).length ≠ 1 ∧
      pointCorrMetric [((0:ℝ), 0, 0), ((0:ℝ), 0, 0)]
        [((0:ℝ), 0, 0), ((0:ℝ), 0, 0), ((0:ℝ), 0, 0)] = none) ∧
    (([((0:ℝ), 0, 0)] : List Point).length ≠
        ([((0:ℝ), 0, 0), ((0:ℝ), 0, 0)] : List Point).length ∧
      (pointCorrMetric [((0:ℝ), 0, 0)] [((0:ℝ), 0, 0), ((0:ℝ), 0, 0)]).isSome = true) :=
  ⟨⟨by simp, (pointCorrMetric_shape_semantics _ _).1 (by simp)⟩,
   ⟨by simp, by simp, by simp,
    (pointCorrMetric_shape_semantics _ _).2.1 (by simp) (by simp) (by simp)⟩,
   ⟨by simp,
    (pointCorrMetric_shape_semantics _ _).2.2 (by simp) (Or.inl (by simp))⟩⟩

/-- Running the `try:` body stops at the first interrupted step: the
checkpoints written are exactly the save phases strictly before it, and
the interrupt escapes the loop exactly when some step is interrupted. -/
theorem runTryBody_eq (intr : LoopStep → Bool) (l : List LoopStep) :
    runTryBody intr l =
      ((l.takeWhile (fun s => !intr s)).filterMap
        (fun s => match s with | LoopStep.saveCkpt e => some e | _ => none),
       if l.any intr then some () else none) := by
  induction l with
  | nil => rfl
  | cons s rest ih =>
    by_cases h : intr s = true
    · simp [runTryBody, h, List.takeWhile_cons, List.any_cons]
    · simp only [Bool.not_eq_true] at h
      cases s <;>
        simp [runTryBody, h, List.takeWhile_cons, List.filterMap_cons, ih, List.any_cons]

/-- **C7**: a `KeyboardInterrupt` fired at any phase of the epoch loop is
caught at the outermost scope: the script always ends normally
(`Except.ok`, never re-raised), logs `'Terminating...'` exactly when an
interrupt fired, and the checkpoints on disk are exactly the saves that
completed strictly before the first interrupted phase — no checkpoint is
written after the interrupt, so the most recent successfully written one
is preserved. -/
theorem mainLoop_keyboardInterrupt (max_epochs : Nat) (intr : LoopStep → Bool) :
    mainLoop max_epochs intr =
      Except.ok
        { ckpts := ((loopSteps max_epochs).takeWhile (fun s => !intr s)).filterMap
            (fun s => match s with | LoopStep.saveCkpt e => some e | _ => none),
          logs := if (loopSteps max_epochs).any intr then ["Terminating..."] else [] } := by
  rw [mainLoop, runTryBody_eq]
  by_cases h : (loopSteps max_epochs).any intr <;> simp [h]

/-- `maxLen` on a cons is the binary max. -/
theorem maxLen_cons (x : List Point) (xs : List (List Point)) :
    maxLen (x :: xs) = max x.length (maxLen xs) := rfl

/-- Every cloud in a batch fits within the padded capacity. -/
theorem length_le_maxLen (l : List Point) (ls : List (List Point)) (h : l ∈ ls) :
    l.length ≤ maxLen ls := by
  induction ls with
  | nil => simp at h
  | cons x xs ih =>
    rw [maxLen_cons]
    rcases List.mem_cons.mp h with h | h
    · subst h; exact le_max_left _ _
    · exact le_trans (ih h) (le_max_right _ _)

/-- Padding a cloud that fits yields exactly the capacity. -/
theorem padTo_length (n : Nat) (l : List Point) (h : l.length ≤ n) :
    (padTo n l).length = n := by
  simp [padTo, Nat.add_sub_cancel' h]

/-- The first `l.length` rows of the padded cloud are the original cloud. -/
theorem padTo_take (n : Nat) (l : List Point) :
    (padTo n l).take l.length = l := by
  simp [padTo, List.take_left]

/-- Reading index `i` of a mapped list. -/
theorem getD_map_get {α β : Type _} (f : α → β) (data : List α) (i : Nat)
    (hi : i < data.length) (d : β) :
    (data.map f).getD i d = f (data.get ⟨i, hi⟩) := by
  rw [List.getD_eq_get?, List.get?_map, List.get?_eq_get hi]
  rfl

/-- When every sample's clean and noisy clouds have the same length, the
noisy padded capacity equals the clean padded capacity. -/
theorem maxLen_noisy_eq_clean (data : List PatchSample)
    (h : ∀ d ∈ data, d.pcl_clean.length = d.pcl_noisy.length) :
    maxLen (data.map PatchSample.pcl_noisy) = maxLen (data.map PatchSample.pcl_clean) := by
  unfold maxLen
  rw [List.map_map, List.map_map]
  congr 1
  exact List.map_congr_left (fun d hd => (h d hd).symm)

/-- **C5**: on a non-empty list of patch samples whose clean and noisy
clouds agree in length per sample, `custom_collate` returns padded
rectangular tensors and true lengths: `pcl_length[i]` is sample `i`'s
point count, it is at most the padded capacity, every padded row has
exactly the capacity as length, and the first `pcl_length[i]` rows of the
padded clean and noisy tensors are sample `i`'s original clouds. -/
theorem customCollate_spec (data : List PatchSample) (hne : data ≠ [])
    (hlen : ∀ d ∈ data, d.pcl_clean.length = d.pcl_noisy.length)
    (i : Nat) (hi : i < data.length) :
    (customCollate data).pcl_length.getD i 0 = (data.get ⟨i, hi⟩).pcl_clean.length ∧
    (customCollate data).pcl_length.getD i 0 ≤ maxLen (data.map PatchSample.pcl_clean) ∧
    ((customCollate data).pcl_clean.getD i []).length =
      maxLen (data.map PatchSample.pcl_clean) ∧
    ((customCollate data).pcl_noisy.getD i []).length =
      maxLen (data.map PatchSample.pcl_clean) ∧
    ((customCollate data).pcl_clean.getD i []).take ((customCollate data).pcl_length.getD i 0) =
      (data.get ⟨i, hi⟩).pcl_clean ∧
    ((customCollate data).pcl_noisy.getD i []).take ((customCollate data).pcl_length.getD i 0) =
      (data.get ⟨i, hi⟩).pcl_noisy := by
  have hmem : data.get ⟨i, hi⟩ ∈ data := List.get_mem data i hi
  have hcleanmem : (data.get ⟨i, hi⟩).pcl_clean ∈ data.map PatchSample.pcl_clean :=
    List.mem_map_of_mem PatchSample.pcl_clean hmem
  have hnoisymem : (data.get ⟨i, hi⟩).pcl_noisy ∈ data.map PatchSample.pcl_noisy :=
    List.mem_map_of_mem PatchSample.pcl_noisy hmem
  have hL : (customCollate data).pcl_length.getD i 0 = (data.get ⟨i, hi⟩).pcl_clean.length := by
    show (data.map (fun d => d.pcl_clean.length)).getD i 0 = _
    exact getD_map_get _ data i hi 0
  have hClean : (customCollate data).pcl_clean.getD i [] =
      padTo (maxLen (data.map PatchSample.pcl_clean)) (data.get ⟨i, hi⟩).pcl_clean := by
    show ((data.map PatchSample.pcl_clean).map
      (padTo (maxLen (data.map PatchSample.pcl_clean)))).getD i [] = _
    rw [List.map_map]
    exact getD_map_get _ data i hi []
  have hNoisy : (customCollate data).pcl_noisy.getD i [] =
      padTo (maxLen (data.map PatchSample.pcl_noisy)) (data.get ⟨i, hi⟩).pcl_noisy := by
    show ((data.map PatchSample.pcl_noisy).map
      (padTo (maxLen (data.map PatchSample.pcl_noisy)))).getD i [] = _
    rw [List.map_map]
    exact getD_map_get _ data i hi []
  have hle : (data.get ⟨i, hi⟩).pcl_clean.length ≤ maxLen (data.map PatchSample.pcl_clean) :=
    length_le_maxLen _ _ hcleanmem
  have hle' : (data.get ⟨i, hi⟩).pcl_noisy.length ≤ maxLen (data.map PatchSample.pcl_noisy) :=
    length_le_maxLen _ _ hnoisymem
  refine ⟨hL, ?_, ?_, ?_, ?_, ?_⟩
  · rw [hL]; exact hle
  · rw [hClean]; exact padTo_length _ _ hle
  · rw [hNoisy, padTo_length _ _ hle', maxLen_noisy_eq_clean data hlen]
  · rw [hClean, hL]; exact padTo_take _ _
  · rw [hNoisy, hL, hlen _ hmem]; exact padTo_take _ _

/-- Witness for C5 on a singleton batch with one-point clouds. -/
theorem customCollate_spec_witness :
    (([⟨[((1:ℝ), 0, 0)], [((2:ℝ), 0, 0)], ((3:ℝ), 0, 0)⟩] : List PatchSample) ≠ []) ∧
    (∀ d ∈ ([⟨[((1:ℝ), 0, 0)], [((2:ℝ), 0, 0)], ((3:ℝ), 0, 0)⟩] : List PatchSample),
      d.pcl_clean.length = d.pcl_noisy.length) ∧
    0 < ([⟨[((1:ℝ), 0, 0)], [((2:ℝ), 0, 0)], ((3:ℝ), 0, 0)⟩] : List PatchSample).length ∧
    (customCollate [⟨[((1:ℝ), 0, 0)], [((2:ℝ), 0, 0)], ((3:ℝ), 0, 0)⟩]).pcl_length.getD 0 0
      = 1 :=
  ⟨by simp, by simp, by simp,
    (customCollate_spec [⟨[((1:ℝ), 0, 0)], [((2:ℝ), 0, 0)], ((3:ℝ), 0, 0)⟩]
      (by simp) (by simp) 0 (by simp)).1⟩

/-- When every denoised cloud matches its clean cloud in length, the
validation loop collects exactly the per-sample Chamfer distances and the
per-sample point-correspondence distances, in dataset order. -/
theorem collectMetrics_ok (denoise : List Point → List Point)
    (chamfer : List Point → List Point → ℝ) (batches : List ValBatch)
    (hshape : ∀ b ∈ batches, (denoise b.pcl_noisy).length = b.pcl_clean.length) :
    collectMetrics denoise chamfer batches =
      Except.ok (batches.map (fun b => chamfer (denoise b.pcl_noisy) b.pcl_clean),
        batches.map (fun b => pointCorrValue (denoise b.pcl_noisy) b.pcl_clean)) := by
  induction batches with
  | nil => rfl
  | cons b rest ih =>
    have hb : (denoise b.pcl_noisy).length = b.pcl_clean.length := hshape b (by simp)
    have hm : pointCorrMetric (denoise b.pcl_noisy) b.pcl_clean =
        some (pointCorrValue (denoise b.pcl_noisy) b.pcl_clean) := by
      rw [pointCorrMetric, if_pos hb]
    have hrest := ih (fun x hx => hshape x (by simp [hx]))
    simp only [collectMetrics, hm, hrest, List.map_cons]

/-- **C6**: on a non-empty validation set whose shapes are compatible,
`validate` returns — and reports under `val/chamfer` and `val/diff` — the
arithmetic mean over all validation samples of the per-sample Chamfer
distance and the arithmetic mean of the per-sample point-correspondence
distance, in that order. -/
theorem validate_means (denoise : List Point → List Point)
    (chamfer : List Point → List Point → ℝ) (batches : List ValBatch)
    (hne : batches ≠ [])
    (hshape : ∀ b ∈ batches, (denoise b.pcl_noisy).length = b.pcl_clean.length) :
    validateRun denoise chamfer batches =
      Except.ok
        (((batches.map (fun b => chamfer (denoise b.pcl_noisy) b.pcl_clean)).sum
            / batches.length,
          (batches.map (fun b => pointCorrValue (denoise b.pcl_noisy) b.pcl_clean)).sum
            / batches.length),
         [("val/chamfer",
            (batches.map (fun b => chamfer (denoise b.pcl_noisy) b.pcl_clean)).sum
              / batches.length),
          ("val/diff",
            (batches.map (fun b => pointCorrValue (denoise b.pcl_noisy) b.pcl_clean)).sum
              / batches.length)]) := by
  unfold validateRun
  rw [collectMetrics_ok denoise chamfer batches hshape]
  simp [torchMean]

/-- Witness for C6 on a singleton validation set with the identity
denoiser and an identically-zero Chamfer collaborator. -/
theorem validate_means_witness :
    (([⟨[((0:ℝ), 0, 0)], [((0:ℝ), 0, 0)], [1]⟩] : List ValBatch) ≠ []) ∧
    (∀ b ∈ ([⟨[((0:ℝ), 0, 0)], [((0:ℝ), 0, 0)], [1]⟩] : List ValBatch),
      (id b.pcl_noisy : List Point).length = b.pcl_clean.length) ∧
    validateRun id (fun _ _ => 0) [⟨[((0:ℝ), 0, 0)], [((0:ℝ), 0, 0)], [1]⟩] =
      Except.ok ((0, 0), [("val/chamfer", 0), ("val/diff", 0)]) := by
  refine ⟨by simp, by simp, ?_⟩
  rw [validate_means id (fun _ _ => 0) _ (by simp) (by simp)]
  simp [pointCorrValue, torchMean, norm3]

/-- Changing (or discarding) the length tensors of the validation batches
does not change anything `validate` computes or reports. -/
theorem collectMetrics_ignores_length (denoise : List Point → List Point)
    (chamfer : List Point → List Point → ℝ) (batches : List ValBatch)
    (f : ValBatch → List Nat) :
    collectMetrics denoise chamfer
        (batches.map (fun b => { b with pcl_length := f b })) =
      collectMetrics denoise chamfer batches := by
  induction batches with
  | nil => rfl
  | cons b rest ih => simp only [List.map_cons, collectMetrics, ih]

/-- **C9**: `validate` never consumes `pcl_length` — its result is
invariant under arbitrary changes to the length tensors — and the metrics
are computed over every row of the padded tensors, so a padding row beyond
the valid length changes the reported values: two batches that agree on
their first (valid) row and on `pcl_length = [1]` but differ in the
padding row produce different validation results. -/
theorem validate_padding_rows_counted :
    (∀ (denoise : List Point → List Point) (chamfer : List Point → List Point → ℝ)
        (batches : List ValBatch) (f : ValBatch → List Nat),
      validateRun denoise chamfer
          (batches.map (fun b => { b with pcl_length := f b })) =
        validateRun denoise chamfer batches) ∧
    validateRun id (fun _ _ => 0)
        [⟨[((0:ℝ), 0, 0), ((0:ℝ), 0, 0)], [((0:ℝ), 0, 0), ((0:ℝ), 0, 0)], [1]⟩] ≠
      validateRun id (fun _ _ => 0)
        [⟨[((0:ℝ), 0, 0), ((4:ℝ), 0, 0)], [((0:ℝ), 0, 0), ((0:ℝ), 0, 0)], [1]⟩] := by
  constructor
  · intro denoise chamfer batches f
    unfold validateRun
    rw [collectMetrics_ignores_length]
  · have hL : validateRun id (fun _ _ => 0)
        [⟨[((0:ℝ), 0, 0), ((0:ℝ), 0, 0)], [((0:ℝ), 0, 0), ((0:ℝ), 0, 0)], [1]⟩] =
        Except.ok ((0, 0), [("val/chamfer", 0), ("val/diff", 0)]) := by
      unfold validateRun
      rw [collectMetrics_ok _ _ _ (by simp)]
      simp [pointCorrValue, torchMean, norm3]
    have hsq : Real.sqrt 16 = 4 := by
      rw [show (16:ℝ) = 4 ^ 2 by norm_num, Real.sqrt_sq (by norm_num : (0:ℝ) ≤ 4)]
    have hR : validateRun id (fun _ _ => 0)
        [⟨[((0:ℝ), 0, 0), ((4:ℝ), 0, 0)], [((0:ℝ), 0, 0), ((0:ℝ), 0, 0)], [1]⟩] =
        Except.ok ((0, 2), [("val/chamfer", 0), ("val/diff", 2)]) := by
      unfold validateRun
      rw [collectMetrics_ok _ _ _ (by simp)]
      simp [pointCorrValue, torchMean, norm3]
      norm_num [hsq]
    rw [hL, hR]
    simp only [ne_eq, Except.ok.injEq, Prod.mk.injEq, not_and]
    intro h1
    norm_num

/-- Heap extension is transitive. -/
theorem heapLe_trans {a b c : THeap} (hab : HeapLe a b) (hbc : HeapLe b c) :
    HeapLe a c :=
  ⟨le_trans hab.1 hbc.1,
   fun i hi => (hbc.2 i (lt_of_lt_of_le hi hab.1)).trans (hab.2 i hi)⟩

/-- Allocating a fresh cell extends the heap. -/
theorem alloc_heapLe (h : THeap) (v : TensorVal) : HeapLe h (h.alloc v).1 := by
  refine ⟨by simp [THeap.alloc], fun i hi => ?_⟩
  simp [THeap.alloc, THeap.read, List.getElem?_append_left hi]

/-- Cloning a list of tensors extends the heap. -/
theorem cloneList_heapLe (h : THeap) (l : List Nat) : HeapLe h (cloneList h l).1 := by
  induction l generalizing h with
  | nil => exact ⟨le_refl _, fun i _ => rfl⟩
  | cons j rest ih =>
    exact heapLe_trans (alloc_heapLe h (h.read j)) (ih (h.alloc (h.read j)).1)

/-- Cloning grows the heap by exactly one cell per cloned tensor. -/
theorem cloneList_cells_length (h : THeap) (l : List Nat) :
    (cloneList h l).1.cells.length = h.cells.length + l.length := by
  induction l generalizing h with
  | nil => rfl
  | cons j rest ih =>
    show (cloneList (h.alloc (h.read j)).1 rest).1.cells.length = _
    rw [ih]
    simp [THeap.alloc]
    omega

/-- The heap produced by `custom_collate` extends the input heap. -/
theorem customCollateRef_heapLe (h : THeap) (data : List SampleRef) :
    HeapLe h (customCollateRef h data).1 := by
  simp only [customCollateRef]
  exact heapLe_trans (cloneList_heapLe _ _) (heapLe_trans (cloneList_heapLe _ _)
    (heapLe_trans (cloneList_heapLe _ _) (heapLe_trans (alloc_heapLe _ _)
      (heapLe_trans (alloc_heapLe _ _) (heapLe_trans (alloc_heapLe _ _) (alloc_heapLe _ _))))))

/-- All four batch tensors returned by `custom_collate` live at ids at or
beyond the input heap's allocation frontier. -/
theorem customCollateRef_ids_ge (h : THeap) (data : List SampleRef) :
    h.cells.length ≤ (customCollateRef h data).2.pcl_clean ∧
    h.cells.length ≤ (customCollateRef h data).2.pcl_noisy ∧
    h.cells.length ≤ (customCollateRef h data).2.pcl_noisy_mean ∧
    h.cells.length ≤ (customCollateRef h data).2.pcl_length := by
  simp only [customCollateRef, THeap.alloc]
  refine ⟨?_, ?_, ?_, ?_⟩ <;>
    simp [cloneList_cells_length] <;> omega

/-- **C10**: `custom_collate` clones and detaches every tensor it reads, so
it leaves the input samples unmodified — every pre-existing heap cell, in
particular each sample's three tensors, still reads its old value — and
the four returned batch tensors live in freshly allocated cells distinct
from every tensor of every input sample, so mutating the batch after
collation cannot change a dataset sample and vice versa. -/
theorem customCollateRef_no_aliasing (h : THeap) (data : List SampleRef)
    (hvalid : ∀ s ∈ data, s.pcl_clean < h.cells.length ∧
      s.pcl_noisy < h.cells.length ∧ s.pcl_noisy_mean < h.cells.length) :
    (∀ i, i < h.cells.length → (customCollateRef h data).1.read i = h.read i) ∧
    (∀ s ∈ data,
      ∀ j ∈ [(customCollateRef h data).2.pcl_clean, (customCollateRef h data).2.pcl_noisy,
        (customCollateRef h data).2.pcl_noisy_mean, (customCollateRef h data).2.pcl_length],
      s.pcl_clean ≠ j ∧ s.pcl_noisy ≠ j ∧ s.pcl_noisy_mean ≠ j) := by
  refine ⟨(customCollateRef_heapLe h data).2, fun s hs j hj => ?_⟩
  obtain ⟨h1, h2, h3⟩ := hvalid s hs
  have hge := customCollateRef_ids_ge h data
  have hjge : h.cells.length ≤ j := by
    simp only [List.mem_cons, List.mem_singleton] at hj
    rcases hj with rfl | rfl | rfl | rfl | hj
    · exact hge.1
    · exact hge.2.1
    · exact hge.2.2.1
    · exact hge.2.2.2
    · simp at hj
  exact ⟨by omega, by omega, by omega⟩

/-- Witness for C10 on a three-cell heap and one sample referring to all
three cells. -/
theorem customCollateRef_no_aliasing_witness :
    (∀ s ∈ ([⟨0, 1, 2⟩] : List SampleRef),
      s.pcl_clean <
        (⟨[TensorVal.pts [], TensorVal.pts [], TensorVal.pts []]⟩ : THeap).cells.length ∧
      s.pcl_noisy <
        (⟨[TensorVal.pts [], TensorVal.pts [], TensorVal.pts []]⟩ : THeap).cells.length ∧
      s.pcl_noisy_mean <
        (⟨[TensorVal.pts [], TensorVal.pts [], TensorVal.pts []]⟩ : THeap).cells.length) ∧
    (0 : Nat) ≠
      (customCollateRef ⟨[TensorVal.pts [], TensorVal.pts [], TensorVal.pts []]⟩
        [⟨0, 1, 2⟩]).2.pcl_clean :=
  ⟨by intro s hs; simp only [List.mem_singleton] at hs; subst hs
      exact ⟨by norm_num, by norm_num, by norm_num⟩,
   ((customCollateRef_no_aliasing ⟨[TensorVal.pts [], TensorVal.pts [], TensorVal.pts []]⟩
        [⟨0, 1, 2⟩]
        (by intro s hs; simp only [List.mem_singleton] at hs; subst hs
            exact ⟨by norm_num, by norm_num, by norm_num⟩)).2
      ⟨0, 1, 2⟩ (by simp) _ (List.mem_cons_self _ _)).1⟩
